import Mathlib

/-!
Verification development for the kaspaBot retrieval / arbitration / conversation
backend.  Python functions from `backend/core.py`, `backend/judge.py`,
`backend/gemini_search.py`, `backend/db/database.py`,
`backend/db/conversation_manager.py` and the `/ask` endpoint of
`backend/api.py` are shallowly embedded as executable Lean definitions.

Modelling conventions, fixed once here:

* Python strings are Lean `String`; the character-level helpers below
  (`lowerChars`, `stripChars`, substring tests, the word-boundary
  `re.sub` model) recurse on `String.data` so that concrete instances
  reduce inside the kernel.  ASCII alphabetics are assumed (the corpus
  term lists and all fixed message strings are ASCII).
* Python float literals (`1.6`, `0.5`, relevance scores, distances) are
  modelled as exact rationals `ℚ`.
* External services (the embedding service, the vector index search, the
  OpenAI chat completion, the Gemini grounded search, `json.loads`) are
  oracles: explicit function or `Except` parameters universally
  quantified in the theorems.  An `Except.error` models a raised Python
  exception crossing that boundary.
* `list.sort(key=..., reverse=True)` and SQL `ORDER BY ts ASC` are
  modelled by a stable insertion sort; Python guarantees its sort is
  stable, and any two stable sorts agree, so this is extensionally
  faithful.
* SQLite `CURRENT_TIMESTAMP` is modelled by a logical clock on the store
  state that advances at each write.
-/

/-! ## Character and string helpers (Python `str.lower`, `str.strip`, `in`) -/

def lowerChars (l : List Char) : List Char := l.map Char.toLower

/-- Model of Python `str.lower()`; kernel-reducible (unlike `String.toLower`). -/
def pyLower (s : String) : String := ⟨lowerChars s.data⟩

def isSpaceChar (c : Char) : Bool := c = ' ' || c = '\t' || c = '\n' || c = '\r'

def stripChars (l : List Char) : List Char :=
  ((l.dropWhile isSpaceChar).reverse.dropWhile isSpaceChar).reverse

/-- Model of Python `str.strip()` (leading and trailing whitespace removed). -/
def pyStrip (s : String) : String := ⟨stripChars s.data⟩

/-- Model of the Python substring test `needle in hay`. -/
def containsSub (hay needle : String) : Bool := decide (needle.data <:+: hay.data)

/-- Model of Python `any(term in text for term in terms)`. -/
def anyTermIn (terms : List String) (text : String) : Bool :=
  terms.any (fun t => containsSub text t)

/-! ## Word-boundary substitution: model of `re.sub(r"\b...\b", repl, s, flags=IGNORECASE)`
for patterns that start and end with word characters (all eleven patterns in
`core.filter_blockchain_from_response` do). -/

/-- Python regex `\w` restricted to ASCII (all inputs of interest are ASCII). -/
def isWordChar (c : Char) : Bool := c.isAlpha || c.isDigit || c = '_'

/-- Case-insensitive prefix test on character lists. -/
def startsWithI : List Char → List Char → Bool
  | [], _ => true
  | _ :: _, [] => false
  | p :: ps, c :: cs => (c.toLower = p.toLower : Bool) && startsWithI ps cs

/-- Scan `s` left to right; wherever the (lower-case, non-empty) pattern
`p :: ps` occurs case-insensitively with a word boundary on both sides,
replace it by `repl` and continue after the matched region, exactly as
`re.sub` does for non-overlapping leftmost matches.  `prevWord` records
whether the character just before the current position is a word
character (false at the start of the string).  The structural `fuel`
argument is initialised to `s.length`; every step consumes at least one
character of `s`, so the `fuel = 0` branch is never reached from
`pyReSubWordI` and the recursion is kernel-reducible. -/
def subAux (p : Char) (ps repl : List Char) : Nat → Bool → List Char → List Char
  | 0, _, _ => []
  | _ + 1, _, [] => []
  | fuel + 1, prevWord, c :: cs =>
    if startsWithI (p :: ps) (c :: cs) then
      let rest := cs.drop ps.length
      if !prevWord && (rest.isEmpty || !isWordChar (rest.headD ' ')) then
        repl ++ subAux p ps repl fuel
          (isWordChar (((c :: cs).take (ps.length + 1)).getLastD ' ')) rest
      else
        c :: subAux p ps repl fuel (isWordChar c) cs
    else
      c :: subAux p ps repl fuel (isWordChar c) cs

/-- Model of `re.sub(r"\b" + pat + r"\b", repl, s, flags=re.IGNORECASE)`
for a non-empty pattern given in lower case. -/
def pyReSubWordI (pat repl s : String) : String :=
  match pat.data with
  | [] => s
  | p :: ps => ⟨subAux p ps repl.data s.data.length false s.data⟩

/-- Embedding of `core.filter_blockchain_from_response`: the chain of eleven
case-insensitive word-bounded substitutions, applied in source order. -/
def filter_blockchain_from_response (response : String) : String :=
  let r := pyReSubWordI "blockchain" "BlockDAG" response
  let r := pyReSubWordI "blockchains" "BlockDAGs" r
  let r := pyReSubWordI "the blockchain" "the BlockDAG" r
  let r := pyReSubWordI "in the blockchain" "in the BlockDAG" r
  let r := pyReSubWordI "blockchain technology" "BlockDAG technology" r
  let r := pyReSubWordI "blockchain space" "BlockDAG space" r
  let r := pyReSubWordI "blockchain realm" "BlockDAG realm" r
  let r := pyReSubWordI "blockchain landscape" "BlockDAG landscape" r
  let r := pyReSubWordI "blockchain protocols" "BlockDAG protocols" r
  let r := pyReSubWordI "blockchain network" "BlockDAG network" r
  let r := pyReSubWordI "blockchain industry" "BlockDAG industry" r
  r

/-! ## Generic stable insertion sort (model of Python `list.sort` and SQL `ORDER BY`) -/

/-- Insert `c` into a list, keeping every head `d` with `keep d c = true`
before `c`.  Used with `keep d c := the sort must leave d before c`. -/
def insOrd {α : Type} (keep : α → α → Bool) (c : α) : List α → List α
  | [] => [c]
  | d :: ds => if keep d c then d :: insOrd keep c ds else c :: d :: ds

/-- Stable insertion sort: later elements of the input are inserted first,
so an earlier element is placed before any equal-key later element,
matching the stability guarantee of Python `list.sort`. -/
def sortOrd {α : Type} (keep : α → α → Bool) : List α → List α
  | [] => []
  | c :: cs => insOrd keep c (sortOrd keep cs)

theorem insOrd_perm {α : Type} (keep : α → α → Bool) (c : α) :
    ∀ l : List α, (insOrd keep c l).Perm (c :: l) := by
  intro l
  induction l with
  | nil => simp [insOrd]
  | cons d ds ih =>
    simp only [insOrd]
    split
    · exact ((ih.cons d).trans (List.Perm.swap c d ds))
    · exact List.Perm.refl _

theorem sortOrd_perm {α : Type} (keep : α → α → Bool) :
    ∀ l : List α, (sortOrd keep l).Perm l := by
  intro l
  induction l with
  | nil => exact List.Perm.refl _
  | cons c cs ih =>
    simp only [sortOrd]
    exact (insOrd_perm keep c (sortOrd keep cs)).trans (ih.cons c)

theorem insOrd_pairwise {α : Type} (keep : α → α → Bool) (R : α → α → Prop)
    (hT : ∀ a b, keep a b = true → R a b)
    (hF : ∀ a b, keep a b = false → R b a)
    (htrans : ∀ a b c, R a b → R b c → R a c)
    (c : α) : ∀ l : List α, l.Pairwise R → (insOrd keep c l).Pairwise R := by
  intro l
  induction l with
  | nil => intro _; simp [insOrd]
  | cons d ds ih =>
    intro hp
    rcases List.pairwise_cons.mp hp with ⟨hd, hds⟩
    simp only [insOrd]
    split
    · rename_i hkeep
      refine List.pairwise_cons.mpr ⟨?_, ih hds⟩
      intro x hx
      have hx' : x ∈ c :: ds := (insOrd_perm keep c ds).mem_iff.mp hx
      rcases List.mem_cons.mp hx' with hx1 | hx1
      · rw [hx1]; exact hT d c hkeep
      · exact hd x hx1
    · rename_i hkeep
      refine List.pairwise_cons.mpr ⟨?_, hp⟩
      intro x hx
      have hcd : R c d := hF d c (Bool.of_not_eq_true hkeep)
      rcases List.mem_cons.mp hx with hx | hx
      · exact hx ▸ hcd
      · exact htrans c d x hcd (hd x hx)

theorem sortOrd_pairwise {α : Type} (keep : α → α → Bool) (R : α → α → Prop)
    (hT : ∀ a b, keep a b = true → R a b)
    (hF : ∀ a b, keep a b = false → R b a)
    (htrans : ∀ a b c, R a b → R b c → R a c) :
    ∀ l : List α, (sortOrd keep l).Pairwise R := by
  intro l
  induction l with
  | nil => simp [sortOrd]
  | cons c cs ih =>
    simpa only [sortOrd] using insOrd_pairwise keep R hT hF htrans c _ ih

/-! ## Local Retriever: embedding of `core.retrieve` -/

/-- One metadata row of the vector index (`metadata.iloc[idx]`). -/
structure MetaRow where
  content : String
  source : String
  sectionName : String
  rowId : String
  url : String
  filename : String
deriving DecidableEq

/-- One nearest-neighbour search hit `(idx, distance)` as returned by
`index.search`. -/
structure SearchHit where
  idx : Nat
  dist : ℚ
deriving DecidableEq

/-- An intermediate scored candidate (`candidate_results` entry). -/
structure Candidate where
  content : String
  source : String
  sectionName : String
  rowId : String
  distance : ℚ
  score : ℚ
  url : String
  filename : String
deriving DecidableEq

/-- A returned chunk after the internal score has been popped. -/
structure RagChunk where
  content : String
  source : String
  sectionName : String
  rowId : String
  distance : ℚ
  url : String
  filename : String
deriving DecidableEq

def protocol_terms : List String :=
  ["knight", "k-colouring", "umc-voting", "ghostdag", "phantom", "algorithm", "procedure"]

def mechanism_terms : List String :=
  ["tie-breaking", "consensus", "safety", "liveness", "cluster", "excessive rank", "natural rank"]

def precision_terms : List String :=
  ["returns", "ensures", "prevents", "selects", "validates", "determines"]

/-- Which of the six boost conditions of `core.retrieve` a candidate
satisfies for a given query. -/
structure BoostFlags where
  protocolB : Bool
  mechanismB : Bool
  precisionB : Bool
  whitepaperB : Bool
  knightB : Bool
  safetyLivenessB : Bool
deriving DecidableEq

def boostFlags (query : String) (row : MetaRow) : BoostFlags :=
  let ql := pyLower query
  let cl := pyLower row.content
  { protocolB := anyTermIn protocol_terms cl
    mechanismB := anyTermIn mechanism_terms cl
    precisionB := anyTermIn precision_terms cl
    whitepaperB := row.source = "whitepaper"
    knightB := containsSub ql "knight" && containsSub cl "knight"
    safetyLivenessB :=
      (containsSub ql "safety" || containsSub ql "liveness") &&
      (containsSub cl "safety" || containsSub cl "liveness") }

/-- The sequentially accumulated multiplicative boost of `core.retrieve`
(Python float literals 1.6, 1.4, 1.3, 1.5, 1.8, 1.7 as exact rationals). -/
def boostValue (f : BoostFlags) : ℚ :=
  let b : ℚ := 1
  let b := if f.protocolB then b * (16 / 10) else b
  let b := if f.mechanismB then b * (14 / 10) else b
  let b := if f.precisionB then b * (13 / 10) else b
  let b := if f.whitepaperB then b * (15 / 10) else b
  let b := if f.knightB then b * (18 / 10) else b
  let b := if f.safetyLivenessB then b * (17 / 10) else b
  b

/-- Number of boost conditions a candidate satisfies. -/
def numBoosts (f : BoostFlags) : Nat :=
  (if f.protocolB then 1 else 0) + (if f.mechanismB then 1 else 0) +
  (if f.precisionB then 1 else 0) + (if f.whitepaperB then 1 else 0) +
  (if f.knightB then 1 else 0) + (if f.safetyLivenessB then 1 else 0)

/-- `base_score = 1 / (1 + distance)` from `core.retrieve`. -/
def base_score (dist : ℚ) : ℚ := 1 / (1 + dist)

/-- `final_score = base_score * boost` from `core.retrieve`. -/
def final_score (query : String) (row : MetaRow) (dist : ℚ) : ℚ :=
  base_score dist * boostValue (boostFlags query row)

def mkCandidate (query : String) (row : MetaRow) (dist : ℚ) : Candidate :=
  { content := row.content
    source := row.source
    sectionName := row.sectionName
    rowId := row.rowId
    distance := dist
    score := final_score query row dist
    url := row.url
    filename := row.filename }

def stripScore (c : Candidate) : RagChunk :=
  { content := c.content
    source := c.source
    sectionName := c.sectionName
    rowId := c.rowId
    distance := c.distance
    url := c.url
    filename := c.filename }

/-- `candidate_results.sort(key=lambda x: x["score"], reverse=True)`:
stable descending sort on the score. -/
def pySortByScoreDesc (l : List Candidate) : List Candidate :=
  sortOrd (fun d c => decide (c.score < d.score)) l

/-- Embedding of `core.retrieve(query, index, metadata, k)`.  The embedding
service and the vector index are one oracle `search`: given the requested
number of neighbours it yields the `(idx, distance)` hits.  Hits whose
index is out of range are skipped (`if idx < len(metadata)`). -/
def retrieve (query : String) (search : Nat → List SearchHit)
    (metadata : List MetaRow) (k : Nat) : List RagChunk :=
  let search_k := min (k * 4) metadata.length
  let hits := search search_k
  let candidate_results := hits.filterMap (fun h =>
    (metadata.get? h.idx).map (fun row => mkCandidate query row h.dist))
  let sorted := pySortByScoreDesc candidate_results
  (sorted.take k).map stripScore

/-! ## Spec-side Local Retriever (written from the words of the specification,
for the refinement claim about the retrieval algorithm) -/

/-- Spec wording: independent multiplicative boosts of 1.6, 1.4, 1.3, 1.5,
1.8 and 1.7, composed as one product. -/
def spec_boost (f : BoostFlags) : ℚ :=
  (if f.protocolB then (16 : ℚ) / 10 else 1) *
  (if f.mechanismB then (14 : ℚ) / 10 else 1) *
  (if f.precisionB then (13 : ℚ) / 10 else 1) *
  (if f.whitepaperB then (15 : ℚ) / 10 else 1) *
  (if f.knightB then (18 : ℚ) / 10 else 1) *
  (if f.safetyLivenessB then (17 : ℚ) / 10 else 1)

/-- Spec wording: `final_score = (1 / (1 + distance)) * product of boosts`. -/
def spec_final_score (query : String) (row : MetaRow) (dist : ℚ) : ℚ :=
  (1 / (1 + dist)) * spec_boost (boostFlags query row)

def mkCandidateSpec (query : String) (row : MetaRow) (dist : ℚ) : Candidate :=
  { content := row.content
    source := row.source
    sectionName := row.sectionName
    rowId := row.rowId
    distance := dist
    score := spec_final_score query row dist
    url := row.url
    filename := row.filename }

/-- The Local Retriever algorithm exactly as the specification words it:
over-fetch `min(k * 4, index_size)` neighbours, score each candidate with
`spec_final_score`, sort descending by score, truncate to `k`, strip the
score. -/
def retrieveSpec (query : String) (search : Nat → List SearchHit)
    (metadata : List MetaRow) (k : Nat) : List RagChunk :=
  let overfetch := min (k * 4) metadata.length
  let hits := search overfetch
  let candidate_results := hits.filterMap (fun h =>
    (metadata.get? h.idx).map (fun row => mkCandidateSpec query row h.dist))
  let sorted := pySortByScoreDesc candidate_results
  (sorted.take k).map stripScore

/-! ## Boost algebra: the product of the matched multipliers, and its strict
monotonicity in the set of matched conditions -/

def boostFactors (f : BoostFlags) : List (Bool × ℚ) :=
  [(f.protocolB, (16 : ℚ) / 10), (f.mechanismB, (14 : ℚ) / 10),
   (f.precisionB, (13 : ℚ) / 10), (f.whitepaperB, (15 : ℚ) / 10),
   (f.knightB, (18 : ℚ) / 10), (f.safetyLivenessB, (17 : ℚ) / 10)]

def prodFactors : List (Bool × ℚ) → ℚ
  | [] => 1
  | x :: xs => (if x.1 then x.2 else 1) * prodFactors xs

theorem boostValue_eq_prod (f : BoostFlags) :
    boostValue f = prodFactors (boostFactors f) := by
  obtain ⟨p, m, pr, w, kb, sl⟩ := f
  simp only [boostValue, boostFactors, prodFactors]
  split_ifs <;> ring

theorem spec_boost_eq_prod (f : BoostFlags) :
    spec_boost f = prodFactors (boostFactors f) := by
  obtain ⟨p, m, pr, w, kb, sl⟩ := f
  simp only [spec_boost, boostFactors, prodFactors]
  split_ifs <;> ring

theorem prodFactors_pos : ∀ xs : List (Bool × ℚ),
    (∀ x ∈ xs, 0 < x.2) → 0 < prodFactors xs := by
  intro xs
  induction xs with
  | nil => intro _; norm_num [prodFactors]
  | cons x xs ih =>
    intro h
    have hx : 0 < x.2 := h x (List.mem_cons_self x xs)
    have htl : 0 < prodFactors xs := ih (fun y hy => h y (List.mem_cons_of_mem x hy))
    simp only [prodFactors]
    split
    · exact mul_pos hx htl
    · simpa using htl

theorem factorsEq_of_maps : ∀ xs ys : List (Bool × ℚ),
    xs.map Prod.fst = ys.map Prod.fst → xs.map Prod.snd = ys.map Prod.snd → xs = ys := by
  intro xs
  induction xs with
  | nil => intro ys h1 _; cases ys with
    | nil => rfl
    | cons y ys => simp at h1
  | cons x xs ih =>
    intro ys h1 h2
    cases ys with
    | nil => simp at h1
    | cons y ys =>
      simp only [List.map_cons, List.cons.injEq] at h1 h2
      have : x = y := Prod.ext h1.1 h2.1
      rw [this, ih ys h1.2 h2.2]

theorem prodFactors_lt : ∀ {xs ys : List (Bool × ℚ)},
    List.Forall₂ (fun x y => x.1 ≤ y.1) xs ys →
    xs.map Prod.snd = ys.map Prod.snd →
    (∀ x ∈ xs, 1 < x.2) →
    xs.map Prod.fst ≠ ys.map Prod.fst →
    prodFactors xs < prodFactors ys := by
  intro xs ys hF
  induction hF with
  | nil => intro _ _ hfst; exact absurd rfl hfst
  | @cons x y xs ys hxy htail ih =>
    intro hsnd hmul hfst
    simp only [List.map_cons, List.cons.injEq] at hsnd
    have hq : x.2 = y.2 := hsnd.1
    have hx2 : 1 < x.2 := hmul x (List.mem_cons_self x xs)
    have hmultl : ∀ z ∈ xs, 1 < z.2 :=
      fun z hz => hmul z (List.mem_cons_of_mem x hz)
    have hpostl : 0 < prodFactors xs :=
      prodFactors_pos xs (fun z hz => lt_trans one_pos (hmultl z hz))
    by_cases htlfst : xs.map Prod.fst = ys.map Prod.fst
    · -- the tails are elementwise equal, so the heads must differ
      have htleq : xs = ys := factorsEq_of_maps xs ys htlfst hsnd.2
      have hxyne : x.1 ≠ y.1 := by
        intro hcontra
        exact hfst (by simp [hcontra, htlfst])
      have hx1 : x.1 = false := by
        cases hx : x.1 with
        | false => rfl
        | true => cases hy : y.1 with
          | true => exact absurd (hx.trans hy.symm) hxyne
          | false => rw [hx, hy] at hxy; exact absurd hxy (by simp)
      have hy1 : y.1 = true := by
        cases hy : y.1 with
        | true => rfl
        | false => rw [hx1, hy] at hxyne; exact absurd rfl hxyne
      simp only [prodFactors, hx1, hy1, if_true, if_false, ← htleq]
      calc 1 * prodFactors xs = prodFactors xs := one_mul _
        _ < y.2 * prodFactors xs := by
            have : 1 < y.2 := hq ▸ hx2
            exact (lt_mul_iff_one_lt_left hpostl).mpr this
    · have htllt : prodFactors xs < prodFactors ys := ih hsnd.2 hmultl htlfst
      have hfacpos : (0 : ℚ) < if x.1 then x.2 else 1 := by
        split
        · exact lt_trans one_pos hx2
        · exact one_pos
      have hfacle : (if x.1 then x.2 else 1) ≤ if y.1 then y.2 else 1 := by
        cases hx : x.1 with
        | false =>
          cases hy : y.1 with
          | false => simp
          | true => simp only [if_false, if_true]; exact le_of_lt (hq ▸ hx2)
        | true =>
          have hy : y.1 = true := by
            cases hyv : y.1 with
            | true => rfl
            | false => rw [hx, hyv] at hxy; exact absurd hxy (by simp)
          simp [hy, hq]
      have hpos' : 0 < prodFactors ys := lt_trans hpostl htllt
      simp only [prodFactors]
      calc (if x.1 then x.2 else 1) * prodFactors xs
          < (if x.1 then x.2 else 1) * prodFactors ys :=
            (mul_lt_mul_left hfacpos).mpr htllt
        _ ≤ (if y.1 then y.2 else 1) * prodFactors ys :=
            mul_le_mul_of_nonneg_right hfacle (le_of_lt hpos')

/-! ## Claims C3, C4, C5 about the Local Retriever -/

theorem final_score_eq_spec (q : String) (row : MetaRow) (d : ℚ) :
    final_score q row d = spec_final_score q row d := by
  simp only [final_score, spec_final_score, base_score, boostValue_eq_prod,
    spec_boost_eq_prod]

theorem mkCandidate_eq_spec (q : String) (row : MetaRow) (d : ℚ) :
    mkCandidate q row d = mkCandidateSpec q row d := by
  simp only [mkCandidate, mkCandidateSpec, final_score_eq_spec]

/-- C4: for every query and every k the embedded `core.retrieve` coincides
with the algorithm as the specification words it: search for
`min(k * 4, index_size)` nearest neighbours, score each candidate with
`base_score = 1 / (1 + distance)` times the product of the six independent
boosts 1.6 / 1.4 / 1.3 / 1.5 / 1.8 / 1.7, sort descending, truncate to k. -/
theorem retrieve_refines_spec (q : String) (search : Nat → List SearchHit)
    (metadata : List MetaRow) (k : Nat) :
    retrieve q search metadata k = retrieveSpec q search metadata k := by
  simp only [retrieve, retrieveSpec, mkCandidate_eq_spec]

/-- C5: for every query and every k, `retrieve` returns at most k chunks
and, whenever the index rows all carry non-empty content (the data-model
invariant maintained by the ingestion code), so does every returned chunk. -/
theorem retrieve_at_most_k_and_nonempty (q : String) (search : Nat → List SearchHit)
    (metadata : List MetaRow) (k : Nat)
    (h : ∀ row ∈ metadata, row.content ≠ "") :
    (retrieve q search metadata k).length ≤ k ∧
    ∀ c ∈ retrieve q search metadata k, c.content ≠ "" := by
  constructor
  · simp only [retrieve, List.length_map, List.length_take]
    exact min_le_left _ _
  · intro c hc
    simp only [retrieve, pySortByScoreDesc] at hc
    rcases List.mem_map.mp hc with ⟨cand, hcand, hstrip⟩
    have h1 : cand ∈ sortOrd (fun d c => decide (c.score < d.score))
        (((search (min (k * 4) metadata.length))).filterMap (fun h =>
          (metadata.get? h.idx).map (fun row => mkCandidate q row h.dist))) :=
      List.mem_of_mem_take hcand
    have h2 := (sortOrd_perm _ _).mem_iff.mp h1
    rcases List.mem_filterMap.mp h2 with ⟨hit, _, hmk⟩
    rcases Option.map_eq_some'.mp hmk with ⟨row, hget, hcandeq⟩
    have hrow : row ∈ metadata := List.get?_mem hget
    rw [← hstrip, ← hcandeq]
    simpa [stripScore, mkCandidate] using h row hrow

/-- Witness for C5 at a concrete one-row index and k = 3. -/
theorem retrieve_at_most_k_and_nonempty_witness :
    (∀ row ∈ [(⟨"knight stuff", "whitepaper", "s", "i", "", ""⟩ : MetaRow)],
      row.content ≠ "") ∧
    ((retrieve "knight" (fun _ => [⟨0, 0⟩])
        [⟨"knight stuff", "whitepaper", "s", "i", "", ""⟩] 3).length ≤ 3 ∧
      ∀ c ∈ retrieve "knight" (fun _ => [⟨0, 0⟩])
        [⟨"knight stuff", "whitepaper", "s", "i", "", ""⟩] 3, c.content ≠ "") :=
  ⟨by decide,
    retrieve_at_most_k_and_nonempty "knight" (fun _ => [⟨0, 0⟩])
      [⟨"knight stuff", "whitepaper", "s", "i", "", ""⟩] 3 (by decide)⟩

/-- C3 as stated is false: with identical base distance 0, the candidate
with content "consensus returns" from the whitepaper partition satisfies
three boost conditions (mechanism 1.4, precision 1.3, preferred source 1.5,
product 2.73) while the candidate with content "knight" satisfies only two
(protocol 1.6 and the dual knight boost 1.8, product 2.88), yet the
three-condition candidate has the strictly lower final score. -/
theorem more_boost_conditions_yet_lower_score :
    numBoosts (boostFlags "knight" ⟨"consensus returns", "whitepaper", "", "", "", ""⟩) >
      numBoosts (boostFlags "knight" ⟨"knight", "generic", "", "", "", ""⟩) ∧
    final_score "knight" ⟨"consensus returns", "whitepaper", "", "", "", ""⟩ 0 <
      final_score "knight" ⟨"knight", "generic", "", "", "", ""⟩ 0 := by
  constructor
  · decide
  · have h1 : boostFlags "knight" ⟨"knight", "generic", "", "", "", ""⟩ =
        ⟨true, false, false, false, true, false⟩ := by decide
    have h2 : boostFlags "knight" ⟨"consensus returns", "whitepaper", "", "", "", ""⟩ =
        ⟨false, true, true, true, false, false⟩ := by decide
    simp only [final_score, base_score, h1, h2, boostValue]
    norm_num

/-- Pointwise order on the six boost condition flags: the left candidate
satisfies a subset of the conditions the right candidate satisfies. -/
def flagsLeP (f g : BoostFlags) : Prop :=
  f.protocolB ≤ g.protocolB ∧ f.mechanismB ≤ g.mechanismB ∧
  f.precisionB ≤ g.precisionB ∧ f.whitepaperB ≤ g.whitepaperB ∧
  f.knightB ≤ g.knightB ∧ f.safetyLivenessB ≤ g.safetyLivenessB

instance (f g : BoostFlags) : Decidable (flagsLeP f g) := by
  unfold flagsLeP; infer_instance

theorem boostValue_lt_of_flags_lt (f g : BoostFlags)
    (hle : flagsLeP f g) (hne : f ≠ g) : boostValue f < boostValue g := by
  rw [boostValue_eq_prod, boostValue_eq_prod]
  apply prodFactors_lt
  · obtain ⟨h1, h2, h3, h4, h5, h6⟩ := hle
    exact .cons h1 (.cons h2 (.cons h3 (.cons h4 (.cons h5 (.cons h6 .nil)))))
  · rfl
  · intro x hx
    simp only [boostFactors, List.mem_cons, List.not_mem_nil, or_false] at hx
    rcases hx with rfl | rfl | rfl | rfl | rfl | rfl <;> norm_num
  · intro hcontra
    apply hne
    obtain ⟨p, m, pr, w, kb, sl⟩ := f
    obtain ⟨p2, m2, pr2, w2, kb2, sl2⟩ := g
    simp only [boostFactors, List.map_cons, List.map_nil, List.cons.injEq,
      and_true] at hcontra
    obtain ⟨e1, e2, e3, e4, e5, e6⟩ := hcontra
    simp_all

/-- C3 (amended): with identical base distance and hence identical base
score, a candidate whose set of satisfied boost conditions strictly
contains the set satisfied by another candidate gets a strictly higher
final score, and in the score-sorted candidate order of `core.retrieve`
it is placed strictly earlier.  (The count comparison of the original
claim fails: see the counterexample theorem.) -/
theorem boost_superset_ranks_higher (q : String) (rowA rowB : MetaRow) (d : ℚ)
    (hd : 0 ≤ d)
    (hle : flagsLeP (boostFlags q rowA) (boostFlags q rowB))
    (hne : boostFlags q rowA ≠ boostFlags q rowB) :
    final_score q rowA d < final_score q rowB d ∧
    ∀ (cs : List Candidate) (i j : Fin (pySortByScoreDesc cs).length),
      ((pySortByScoreDesc cs).get i).score = final_score q rowB d →
      ((pySortByScoreDesc cs).get j).score = final_score q rowA d →
      i < j := by
  have hbase : 0 < base_score d := by
    have h1 : (0 : ℚ) < 1 + d := by linarith
    exact div_pos one_pos h1
  have hboost := boostValue_lt_of_flags_lt _ _ hle hne
  have hscore : final_score q rowA d < final_score q rowB d := by
    unfold final_score
    exact mul_lt_mul_of_pos_left hboost hbase
  refine ⟨hscore, ?_⟩
  intro cs i j hi hj
  have hpw : (pySortByScoreDesc cs).Pairwise (fun a b => b.score ≤ a.score) := by
    apply sortOrd_pairwise
    · intro a b h
      exact le_of_lt (of_decide_eq_true h)
    · intro a b h
      exact le_of_not_lt (of_decide_eq_false h)
    · intro a b c h1 h2
      exact le_trans h2 h1
  by_contra hij
  push_neg at hij
  rcases lt_or_eq_of_le hij with hlt | heq
  · have hrel := List.pairwise_iff_get.mp hpw j i hlt
    rw [hi, hj] at hrel
    exact absurd hrel (not_le_of_lt hscore)
  · rw [heq] at hj
    rw [hi] at hj
    exact absurd hj (ne_of_gt hscore)

/-- Witness for the amended C3: content "knight ensures" satisfies a strict
superset of the conditions satisfied by content "knight" and scores
strictly higher at equal distance 0. -/
theorem boost_superset_ranks_higher_witness :
    (0 : ℚ) ≤ 0 ∧
    flagsLeP (boostFlags "knight" ⟨"knight", "generic", "", "", "", ""⟩)
      (boostFlags "knight" ⟨"knight ensures", "generic", "", "", "", ""⟩) ∧
    final_score "knight" ⟨"knight", "generic", "", "", "", ""⟩ 0 <
      final_score "knight" ⟨"knight ensures", "generic", "", "", "", ""⟩ 0 :=
  ⟨le_refl 0, by decide,
    (boost_superset_ranks_higher "knight" ⟨"knight", "generic", "", "", "", ""⟩
      ⟨"knight ensures", "generic", "", "", "", ""⟩ 0 (le_refl 0)
      (by decide) (by decide)).1⟩

/-! ## Conversation Store: embedding of `db/database.py` and
`db/conversation_manager.py` -/

/-- One row of the `conversations` table. -/
structure ConvRow where
  conversation_id : String
  title : Option String
  user_id : Option String
  created_at : Nat
  last_updated : Nat
deriving DecidableEq

/-- One row of the `messages` table.  The `metadata` column stores the
citation summary written by the endpoint (`json.dumps` serialisation is
elided; the value itself is kept). -/
structure MsgRow where
  conversation_id : String
  role : String
  content : String
  metadata : Option (List (String × String))
  timestamp : Nat
deriving DecidableEq

/-- State of the SQLite store.  `clock` models `CURRENT_TIMESTAMP`: it is
read at each write and advances afterwards. -/
structure DBState where
  convs : List ConvRow
  msgs : List MsgRow
  clock : Nat
deriving DecidableEq

def conv_id_taken (s : DBState) (cid : String) : Bool :=
  s.convs.any (fun c => c.conversation_id = cid)

/-- Embedding of `ConversationDB.create_conversation`: `INSERT` into a
table whose `conversation_id` column is `UNIQUE`; an `IntegrityError`
(duplicate id) is caught and turned into `False`. -/
def create_conversation (s : DBState) (cid : String)
    (title user_id : Option String) : Bool × DBState :=
  if conv_id_taken s cid then
    (false, s)
  else
    (true,
      { s with
        convs := s.convs ++ [⟨cid, title, user_id, s.clock, s.clock⟩]
        clock := s.clock + 1 })

/-- Embedding of `ConversationDB.add_message`: ensure the conversation row
exists, insert the message (the `CHECK (role IN ('user','assistant'))`
constraint turns any other role into a caught failure), then update the
`last_updated` column of the conversation row. -/
def add_message (s : DBState) (cid role content : String)
    (metadata : Option (List (String × String))) : Bool × DBState :=
  if role = "user" ∨ role = "assistant" then
    let s1 : DBState :=
      if conv_id_taken s cid then s else (create_conversation s cid none none).2
    let s2 : DBState := { s1 with
      msgs := s1.msgs ++ [⟨cid, role, content, metadata, s1.clock⟩]
      clock := s1.clock + 1 }
    let s3 : DBState := { s2 with
      convs := s2.convs.map (fun c =>
        if c.conversation_id = cid then { c with last_updated := s2.clock } else c)
      clock := s2.clock + 1 }
    (true, s3)
  else
    (false, s)

/-- Embedding of `ConversationDB.get_conversation_history`:
`SELECT ... WHERE conversation_id = ? ORDER BY timestamp ASC LIMIT ?`,
with ties resolved in row order (stable sort). -/
def get_conversation_history (s : DBState) (cid : String) (limit : Nat) : List MsgRow :=
  (sortOrd (fun d m => decide (d.timestamp < m.timestamp))
    (s.msgs.filter (fun m => m.conversation_id = cid))).take limit

/-- Embedding of `ConversationDB.get_conversation_info` (only the presence
of the row matters to the claims). -/
def get_conversation_info (s : DBState) (cid : String) : Option ConvRow :=
  s.convs.find? (fun c => c.conversation_id = cid)

/-- Embedding of `conversation_manager.conversation_exists`. -/
def conversation_exists (s : DBState) (cid : String) : Bool :=
  (get_conversation_info s cid).isSome

/-- Embedding of `conversation_manager.start_conversation`: create the
conversation under the supplied id (or a freshly generated uuid `genId`
when none was supplied) and return the id whether or not the insert
succeeded. -/
def start_conversation (s : DBState) (user_id title conversation_id : Option String)
    (genId : String) : String × DBState :=
  let cid := conversation_id.getD genId
  let r := create_conversation s cid title user_id
  (cid, r.2)

/-- Embedding of `conversation_manager.add_user_message`. -/
def add_user_message (s : DBState) (cid question : String) : Bool × DBState :=
  add_message s cid "user" question none

/-- Embedding of `conversation_manager.add_assistant_message`. -/
def add_assistant_message (s : DBState) (cid answer : String)
    (metadata : Option (List (String × String))) : Bool × DBState :=
  add_message s cid "assistant" answer metadata

/-- Embedding of `conversation_manager.get_conversation_context`: the
history rows mapped to `(role, content)` pairs. -/
def get_conversation_context (s : DBState) (cid : String) (max_messages : Nat) :
    List (String × String) :=
  (get_conversation_history s cid max_messages).map (fun m => (m.role, m.content))

/-! ## Claims C7 and C8 about the Conversation Store -/

def countConv (s : DBState) (cid : String) : Nat :=
  (s.convs.filter (fun c => c.conversation_id = cid)).length

theorem countConv_pos_iff_taken (s : DBState) (cid : String) :
    conv_id_taken s cid = true ↔ 0 < countConv s cid := by
  constructor
  · intro h
    rcases List.any_eq_true.mp h with ⟨c, hc, hcid⟩
    exact List.length_pos_of_mem (List.mem_filter.mpr ⟨hc, hcid⟩)
  · intro h
    have hne : s.convs.filter (fun c => c.conversation_id = cid) ≠ [] := by
      intro he
      rw [countConv, he] at h
      simp at h
    rcases List.exists_mem_of_ne_nil _ hne with ⟨c, hc⟩
    rcases List.mem_filter.mp hc with ⟨h1, h2⟩
    exact List.any_eq_true.mpr ⟨c, h1, h2⟩

theorem conv_id_taken_create (s : DBState) (cid : String) (t u : Option String) :
    conv_id_taken (create_conversation s cid t u).2 cid = true := by
  simp only [create_conversation]
  split
  · assumption
  · simp [conv_id_taken, List.any_eq_true]

theorem countConv_create (s : DBState) (cid : String) (t u : Option String) :
    countConv (create_conversation s cid t u).2 cid =
      if conv_id_taken s cid then countConv s cid else countConv s cid + 1 := by
  simp only [create_conversation]
  split
  · rfl
  · simp [countConv, List.filter_append]

/-- C7: creating a conversation twice under the same id returns that id
both times, raises nothing (`create_conversation` converts the UNIQUE
violation into a boolean), and leaves exactly one row for the id, given
the UNIQUE-index invariant that the id occurs at most once beforehand. -/
theorem start_conversation_idempotent (s0 : DBState) (cid : String)
    (uid title uid2 title2 : Option String) (g1 g2 : String)
    (h : countConv s0 cid ≤ 1) :
    (start_conversation s0 uid title (some cid) g1).1 = cid ∧
    (start_conversation (start_conversation s0 uid title (some cid) g1).2
        uid2 title2 (some cid) g2).1 = cid ∧
    countConv (start_conversation (start_conversation s0 uid title (some cid) g1).2
        uid2 title2 (some cid) g2).2 cid = 1 := by
  refine ⟨rfl, rfl, ?_⟩
  have hstep1 : (start_conversation s0 uid title (some cid) g1).2 =
      (create_conversation s0 cid title uid).2 := rfl
  have hstep2 : (start_conversation (create_conversation s0 cid title uid).2
      uid2 title2 (some cid) g2).2 =
      (create_conversation (create_conversation s0 cid title uid).2 cid title2 uid2).2 := rfl
  rw [hstep1, hstep2, countConv_create, conv_id_taken_create, if_pos rfl,
    countConv_create]
  by_cases htaken : conv_id_taken s0 cid
  · have hpos := (countConv_pos_iff_taken s0 cid).mp htaken
    rw [if_pos htaken]
    omega
  · have hzero : countConv s0 cid = 0 := by
      by_contra hne
      exact htaken ((countConv_pos_iff_taken s0 cid).mpr (by omega))
    rw [if_neg htaken]
    omega

/-- Witness for C7 on the empty store. -/
theorem start_conversation_idempotent_witness :
    countConv ⟨[], [], 0⟩ "c1" ≤ 1 ∧
    ((start_conversation ⟨[], [], 0⟩ none none (some "c1") "g").1 = "c1" ∧
      (start_conversation (start_conversation ⟨[], [], 0⟩ none none (some "c1") "g").2
          none none (some "c1") "g").1 = "c1" ∧
      countConv (start_conversation
          (start_conversation ⟨[], [], 0⟩ none none (some "c1") "g").2
          none none (some "c1") "g").2 "c1" = 1) :=
  ⟨by decide,
    start_conversation_idempotent ⟨[], [], 0⟩ "c1" none none none none "g" "g"
      (by decide)⟩

/-- C8: `get_conversation_context(id, max_messages = N)` returns at most N
entries; the underlying history rows are sorted oldest first, strictly so
when the stored timestamps of the conversation are pairwise distinct (the
data-model invariant: timestamps are monotonically increasing per
conversation); and the context is exactly the (role, content) image of
that ordered history. -/
theorem get_context_bounded_and_ordered (s : DBState) (cid : String) (N : Nat)
    (hdist : (s.msgs.filter (fun m => m.conversation_id = cid)).Pairwise
      (fun a b => a.timestamp ≠ b.timestamp)) :
    (get_conversation_context s cid N).length ≤ N ∧
    (get_conversation_history s cid N).Pairwise
      (fun a b => a.timestamp < b.timestamp) ∧
    get_conversation_context s cid N =
      (get_conversation_history s cid N).map (fun m => (m.role, m.content)) := by
  refine ⟨?_, ?_, rfl⟩
  · simp only [get_conversation_context, get_conversation_history,
      List.length_map, List.length_take]
    exact min_le_left _ _
  · have hsorted : (sortOrd (fun d m => decide (d.timestamp < m.timestamp))
        (s.msgs.filter (fun m => m.conversation_id = cid))).Pairwise
        (fun a b => a.timestamp ≤ b.timestamp) := by
      apply sortOrd_pairwise
      · intro a b h
        exact le_of_lt (of_decide_eq_true h)
      · intro a b h
        exact le_of_not_lt (of_decide_eq_false h)
      · intro a b c h1 h2
        exact le_trans h1 h2
    have hdist2 : (sortOrd (fun d m => decide (d.timestamp < m.timestamp))
        (s.msgs.filter (fun m => m.conversation_id = cid))).Pairwise
        (fun a b => a.timestamp ≠ b.timestamp) :=
      (List.Perm.pairwise_iff (fun h => Ne.symm h) (sortOrd_perm _ _)).mpr hdist
    have hstrict := hsorted.and hdist2
    have hlt : (sortOrd (fun d m => decide (d.timestamp < m.timestamp))
        (s.msgs.filter (fun m => m.conversation_id = cid))).Pairwise
        (fun a b => a.timestamp < b.timestamp) :=
      hstrict.imp (fun hab => lt_of_le_of_ne hab.1 hab.2)
    exact List.Pairwise.sublist (List.take_sublist N _) hlt

/-- Witness for C8: a two-message store with distinct timestamps. -/
theorem get_context_bounded_and_ordered_witness :
    (((⟨[⟨"c1", none, none, 0, 0⟩],
        [⟨"c1", "user", "hello", none, 1⟩, ⟨"c1", "assistant", "hi", none, 2⟩],
        3⟩ : DBState).msgs.filter (fun m => m.conversation_id = "c1")).Pairwise
      (fun a b => a.timestamp ≠ b.timestamp)) ∧
    ((get_conversation_context ⟨[⟨"c1", none, none, 0, 0⟩],
        [⟨"c1", "user", "hello", none, 1⟩, ⟨"c1", "assistant", "hi", none, 2⟩],
        3⟩ "c1" 8).length ≤ 8 ∧
      (get_conversation_history ⟨[⟨"c1", none, none, 0, 0⟩],
        [⟨"c1", "user", "hello", none, 1⟩, ⟨"c1", "assistant", "hi", none, 2⟩],
        3⟩ "c1" 8).Pairwise (fun a b => a.timestamp < b.timestamp) ∧
      get_conversation_context ⟨[⟨"c1", none, none, 0, 0⟩],
        [⟨"c1", "user", "hello", none, 1⟩, ⟨"c1", "assistant", "hi", none, 2⟩],
        3⟩ "c1" 8 =
        (get_conversation_history ⟨[⟨"c1", none, none, 0, 0⟩],
          [⟨"c1", "user", "hello", none, 1⟩, ⟨"c1", "assistant", "hi", none, 2⟩],
          3⟩ "c1" 8).map (fun m => (m.role, m.content))) :=
  ⟨by decide,
    get_context_bounded_and_ordered _ "c1" 8 (by decide)⟩

/-! ## Web Retriever: embedding of `gemini_search.fetch_web_chunks` -/

/-- A Python value produced by `json.loads`. -/
inductive PyJson where
  | jnull : PyJson
  | jbool : Bool → PyJson
  | jnum : ℚ → PyJson
  | jstr : String → PyJson
  | jarr : List PyJson → PyJson
  | jobj : List (String × PyJson) → PyJson

/-- A web chunk dict.  `url` is `none` when the dict carries no `url` key
(the raw-text fallback chunk of the source omits it). -/
structure WebChunk where
  content : String
  url : Option String
  date : String
  source : String
  score : ℚ
deriving DecidableEq

/-- Python `item.get(key, default)`: `none` models the `AttributeError`
raised when `item` is not a dict; duplicate keys resolve to the last one,
as in a parsed JSON object. -/
def pyGet (item : PyJson) (key : String) (dflt : PyJson) : Option PyJson :=
  match item with
  | .jobj fields =>
    match fields.reverse.find? (fun f => f.1 = key) with
    | some f => some f.2
    | none => some dflt
  | _ => none

/-- Python `str(...)` on a JSON value.  Claims only exercise the string
case; the representations of the container cases are abstracted to `""`. -/
def pyToStr : PyJson → String
  | .jstr s => s
  | .jnull => "None"
  | .jbool true => "True"
  | .jbool false => "False"
  | .jnum _ => ""
  | .jarr _ => ""
  | .jobj _ => ""

/-- Python `float(...)` on a JSON value: `none` models a raised
`TypeError`/`ValueError` (numeric strings are approximated as failing;
no claim exercises them). -/
def pyFloat : PyJson → Option ℚ
  | .jnum q => some q
  | .jbool b => some (if b then 1 else 0)
  | _ => none

/-- The per-item chunk construction inside the `for item in data[:k]` loop
of `fetch_web_chunks`; `none` models an exception inside the loop body. -/
def toWebChunkItem (item : PyJson) : Option WebChunk := do
  let c ← pyGet item "content" (.jstr "")
  let u ← pyGet item "url" (.jstr "")
  let d ← pyGet item "date" (.jstr "unknown")
  let s ← pyGet item "source" (.jstr "web_search")
  let sc ← pyGet item "score" (.jnum 1)
  let scv ← pyFloat sc
  let srcStr := pyToStr s
  some { content := pyStrip (pyToStr c)
         url := some (pyToStr u)
         date := pyToStr d
         source := if srcStr = "" then "web_search" else srcStr
         score := scv }

/-- The appending loop: on the first failing item the `except` clause of
the source fires with the chunks built so far still in the list. -/
def convertLoop : List PyJson → List WebChunk → List WebChunk × Bool
  | [], acc => (acc, false)
  | j :: js, acc =>
    match toWebChunkItem j with
    | some w => convertLoop js (acc ++ [w])
    | none => (acc, true)

/-- The single low-confidence chunk wrapping unparseable raw text
(`score = 1.0`, no `url` key). -/
def rawTextChunk (text : String) : WebChunk :=
  { content := text, url := none, date := "unknown", source := "web_search", score := 1 }

/-- The synthetic chunk describing a failed Gemini call
(`str(e)[:100]` truncation, `score = 0.5`). -/
def errorChunk (e : String) : WebChunk :=
  { content := "Unable to retrieve web results: " ++ ⟨e.data.take 100⟩ ++ "..."
    url := some ""
    date := "unknown"
    source := "web_search"
    score := 1 / 2 }

/-- Embedding of `gemini_search.fetch_web_chunks`.  `apiKeySet` is the
`GEMINI_API_KEY` check of `_client()` (its failure is an uncaught
`RuntimeError`); `call` is the `generate_content` oracle returning
`resp.text` (`none` models a `None` text attribute); `loads` is the
`json.loads` oracle (`none` models a parse exception). -/
def fetch_web_chunks (apiKeySet : Bool) (call : Except String (Option String))
    (loads : String → Option PyJson) (k : Nat) : Except String (List WebChunk) :=
  if !apiKeySet then
    .error "GEMINI_API_KEY is not set"
  else
    match call with
    | .error e => .ok [errorChunk e]
    | .ok t? =>
      let text := pyStrip (t?.getD "")
      if text = "" then
        .ok []
      else
        match loads text with
        | some (.jarr items) =>
          match convertLoop (items.take k) [] with
          | (ws, false) => .ok ws
          | (ws, true) => .ok (ws ++ [rawTextChunk text])
        | some _ => .ok []
        | none => .ok [rawTextChunk text]

/-! ## Claim C6 about the Web Retriever -/

/-- C6 is refuted at empty service text: the stripped text `""` is not
parseable as structured data, yet `fetch_web_chunks` returns zero chunks,
not the one raw-text chunk the claim requires. -/
theorem fetch_web_chunks_empty_text_no_chunk :
    fetch_web_chunks true (.ok (some " ")) (fun _ => none) 6 = .ok [] ∧
    (fun l => l.length) ((fetch_web_chunks true (.ok (some " "))
      (fun _ => none) 6).toOption.getD []) = 0 := by
  constructor
  · rfl
  · rfl

/-- C6 (amended): provided the API key is configured, `fetch_web_chunks`
never raises; a failing service call yields exactly the one synthetic
failure chunk; and service text that is non-empty after stripping and not
parseable as structured data yields exactly the one raw-text chunk with
score 1.0 (text that strips to empty yields no chunk at all). -/
theorem fetch_web_chunks_degrades (call : Except String (Option String))
    (loads : String → Option PyJson) (k : Nat) (e text : String)
    (hne : pyStrip text ≠ "") (hparse : loads (pyStrip text) = none) :
    (∃ ws, fetch_web_chunks true call loads k = .ok ws) ∧
    fetch_web_chunks true (.error e) loads k = .ok [errorChunk e] ∧
    fetch_web_chunks true (.ok (some text)) loads k = .ok [rawTextChunk (pyStrip text)] ∧
    (rawTextChunk (pyStrip text)).content = pyStrip text ∧
    (rawTextChunk (pyStrip text)).score = 1 := by
  refine ⟨?_, rfl, ?_, rfl, rfl⟩
  · match call with
    | .error e2 => exact ⟨[errorChunk e2], rfl⟩
    | .ok t? =>
      simp only [fetch_web_chunks, Bool.not_true, Bool.false_eq_true, if_false]
      split
      · exact ⟨[], rfl⟩
      · split
        · split
          · rename_i ws hws
            exact ⟨ws, rfl⟩
          · rename_i ws hws
            exact ⟨ws ++ [rawTextChunk (pyStrip (t?.getD ""))], rfl⟩
        · exact ⟨[], rfl⟩
        · exact ⟨[rawTextChunk (pyStrip (t?.getD ""))], rfl⟩
  · simp only [fetch_web_chunks, Bool.not_true, Bool.false_eq_true, if_false,
      Option.getD_some]
    rw [if_neg hne, hparse]

/-! ## Arbitrator: embedding of `judge.judge_merge_answers` -/

/-- A retrieval result dict as consumed by the `/ask` endpoint (Qdrant or
FAISS local results and Gemini web results share this shape; optional
fields model keys that may be absent from the dict). -/
structure SrcChunk where
  content : String
  source : String
  sectionName : Option String
  filename : Option String
  url : Option String
  date : Option String
  score : Option ℚ
deriving DecidableEq

/-- Embedding of `judge.judge_merge_answers`.  The prompt blocks built from
the question and the two chunk lists only feed the chat-completion oracle
`genCall` and are elided; what matters is the control flow: the OpenAI
call is wrapped in try/except, a raised exception becomes the string
`(Error during judgment: e)`, a `None` completion becomes `""`, and the
result is stripped.  The function itself never raises. -/
def judge_merge_answers (question : String) (rag_chunks web_chunks : List SrcChunk)
    (genCall : Except String (Option String)) : String :=
  let _ := question
  let _ := rag_chunks
  let _ := web_chunks
  let content :=
    match genCall with
    | .ok c? => c?.getD ""
    | .error e => "(Error during judgment: " ++ e ++ ")"
  pyStrip content

/-! ## Orchestrator: embedding of the `/ask` endpoint `api.ask_question` -/

structure QueryRequest where
  question : String
  conversation_id : Option String
  user_id : Option String
deriving DecidableEq

structure Citation where
  source : String
  sectionName : String
  filename : Option String
  url : String
  date : Option String
  score : ℚ
  ctype : String
deriving DecidableEq

/-- The citation dict built for a local (rag) result: it has a `filename`
key and no `date` key. -/
def ragCitation (r : SrcChunk) : Citation :=
  { source := r.source
    sectionName := r.sectionName.getD ""
    filename := some (r.filename.getD "")
    url := r.url.getD ""
    date := none
    score := r.score.getD 0
    ctype := "rag" }

/-- The citation dict built for a web result: it has a `date` key and no
`filename` key. -/
def webCitation (r : SrcChunk) : Citation :=
  { source := r.source
    sectionName := r.sectionName.getD ""
    filename := none
    url := r.url.getD ""
    date := some (r.date.getD "")
    score := r.score.getD 0
    ctype := "web" }

/-- The JSON body of the `/ask` response (the constant `vector_db` field is
omitted). -/
structure AskResponse where
  answer : String
  citations : List Citation
  conversation_id : String
  hybrid : Bool
deriving DecidableEq

/-- The external outcomes one `/ask` call can observe: the two retrieval
results (a retriever failure has already been caught and degraded to
`[]` by the endpoint), the chat-completion call inside the judge, the
`generate_answer` call of the traditional path (this one may raise), and
the uuid generator. -/
structure AskOracles where
  ragResults : List SrcChunk
  webResults : List SrcChunk
  judgeGen : Except String (Option String)
  ragGen : Except String String
  genId : String

deriving instance DecidableEq for Except

/-- Everything observable about one `/ask` call: the HTTP-level outcome
(`Except.error` is an exception escaping the endpoint), the final store
state, and how often each generation service was invoked. -/
structure AskRun where
  result : Except String AskResponse
  state : DBState
  ragGenCalls : Nat
  judgeCalls : Nat

/-- ASCII apostrophe, built by code point to keep string literals plain. -/
def aposS : String := String.mk [Char.ofNat 39]

/-- The fixed no-information response of `api.ask_question`. -/
def noInfoAnswer : String :=
  "Sorry, I couldn" ++ aposS ++
    "t find any information to answer your question. Please try rephrasing or asking something else."

/-- Conversation id resolution of `api.ask_question` (lines 84 to 93): a
missing id and an id unknown to the store both collapse to the static
test id. -/
def resolve_conversation_id (req : QueryRequest) (s0 : DBState) : String :=
  match req.conversation_id with
  | none => "temp1234"
  | some c => if conversation_exists s0 c then c else "temp1234"

/-- Lines 96 to 97 of `api.ask_question`: create the conversation row when
it does not exist yet. -/
def ensure_conversation (s0 : DBState) (cid : String) (uid : Option String)
    (genId : String) : DBState :=
  if conversation_exists s0 cid then s0
  else (start_conversation s0 uid (some ("Conversation " ++ cid))
    (some cid) genId).2

/-- Embedding of `api.ask_question`.  `hybrid` is the `USE_HYBRID`
configuration flag.  The steps follow the source: resolve the
conversation id, ensure the conversation row, read the bounded context,
append the user turn, branch on which chunk sets are non-empty, run the
unconditional traditional-flow block (source line 187 resets the local
hybrid flag, line 188 guards on it and on the web results), then build
the citation metadata and append the assistant turn; reading the
`citations` variable on a path that never assigned it raises a
`NameError` that escapes the endpoint before the assistant turn is
stored. -/
def ask_question (hybrid : Bool) (req : QueryRequest) (orc : AskOracles)
    (s0 : DBState) : AskRun :=
  let conversation_id := resolve_conversation_id req s0
  let s1 : DBState := ensure_conversation s0 conversation_id
    (some (req.user_id.getD "temp_user")) orc.genId
  let _context := get_conversation_context s1 conversation_id 8
  let s2 : DBState := (add_user_message s1 conversation_id req.question).2
  let rag_results := orc.ragResults
  let web_results := if hybrid then orc.webResults else []
  let step3 : Option String × Option (List Citation) × Nat :=
    if rag_results = [] ∧ web_results = [] then
      (some noInfoAnswer, some [], 0)
    else if hybrid ∧ rag_results ≠ [] ∧ web_results ≠ [] then
      let raw_judge_answer :=
        judge_merge_answers req.question rag_results web_results orc.judgeGen
      (some (filter_blockchain_from_response raw_judge_answer),
        some (rag_results.map ragCitation ++ web_results.map webCitation), 1)
    else
      (none, none, 0)
  let use_hybrid_local := hybrid
  let stepFinal : Option String × Option (List Citation) × Nat :=
    if ¬use_hybrid_local ∨ (use_hybrid_local ∧ web_results = []) then
      match orc.ragGen with
      | .ok raw_answer =>
        (some (filter_blockchain_from_response raw_answer),
          some (rag_results.map ragCitation), 1)
      | .error e =>
        (some ("Sorry, there was an error processing your question: " ++ e),
          some [], 1)
    else
      (step3.1, step3.2.1, 0)
  match stepFinal.2.1, stepFinal.1 with
  | some citations, some answer =>
    let citation_metadata := citations.map (fun c => (c.source, c.ctype))
    let s3 := (add_assistant_message s2 conversation_id answer
      (some citation_metadata)).2
    { result := .ok ⟨answer, citations, conversation_id, use_hybrid_local⟩
      state := s3
      ragGenCalls := stepFinal.2.2
      judgeCalls := step3.2.2 }
  | _, _ =>
    { result := .error "NameError: citations is not defined"
      state := s2
      ragGenCalls := stepFinal.2.2
      judgeCalls := step3.2.2 }

/-! ## Claims C1, C2, C9, C10 about the `/ask` endpoint -/

theorem create_conversation_msgs (s : DBState) (cid : String) (t u : Option String) :
    (create_conversation s cid t u).2.msgs = s.msgs := by
  rw [create_conversation]; split <;> rfl

theorem start_conversation_msgs (s : DBState) (u t c : Option String) (g : String) :
    (start_conversation s u t c g).2.msgs = s.msgs := by
  simp only [start_conversation]
  exact create_conversation_msgs s _ t u

theorem ensure_conversation_msgs (s : DBState) (cid : String) (uid : Option String)
    (g : String) : (ensure_conversation s cid uid g).msgs = s.msgs := by
  rw [ensure_conversation]
  split
  · rfl
  · rw [start_conversation_msgs]

theorem add_message_msgs (s : DBState) (cid role content : String)
    (meta : Option (List (String × String))) :
    ∀ m ∈ (add_message s cid role content meta).2.msgs,
      m ∈ s.msgs ∨ m.conversation_id = cid := by
  intro m hm
  rw [add_message] at hm
  split at hm
  · dsimp only at hm
    rw [List.mem_append] at hm
    rcases hm with hm | hm
    · left
      by_cases h : conv_id_taken s cid
      · rw [if_pos h] at hm; exact hm
      · rw [if_neg h, create_conversation_msgs] at hm; exact hm
    · right
      rcases List.mem_singleton.mp hm with rfl
      rfl
  · exact Or.inl hm

theorem ask_question_cid_general (hybrid : Bool) (req : QueryRequest)
    (orc : AskOracles) (s0 : DBState) :
    (∀ m ∈ (ask_question hybrid req orc s0).state.msgs,
      m ∈ s0.msgs ∨ m.conversation_id = resolve_conversation_id req s0) ∧
    ∀ resp, (ask_question hybrid req orc s0).result = .ok resp →
      resp.conversation_id = resolve_conversation_id req s0 := by
  constructor
  · intro m hm
    rw [ask_question] at hm
    dsimp only at hm
    split at hm
    · dsimp only at hm
      rw [add_assistant_message] at hm
      rcases add_message_msgs _ _ _ _ _ m hm with hm2 | hm2
      · rw [add_user_message] at hm2
        rcases add_message_msgs _ _ _ _ _ m hm2 with hm3 | hm3
        · rw [ensure_conversation_msgs] at hm3
          exact Or.inl hm3
        · exact Or.inr hm3
      · exact Or.inr hm2
    · dsimp only at hm
      rw [add_user_message] at hm
      rcases add_message_msgs _ _ _ _ _ m hm with hm3 | hm3
      · rw [ensure_conversation_msgs] at hm3
        exact Or.inl hm3
      · exact Or.inr hm3
  · intro resp hresp
    rw [ask_question] at hresp
    dsimp only at hresp
    split at hresp
    · dsimp only at hresp
      rcases hresp with ⟨rfl⟩
      rfl
    · exact absurd hresp (by simp)

/-- C10: when the request carries no conversation id, or an id unknown to
the store, `ask_question` silently substitutes the static id `temp1234`:
every message the call appends belongs to that shared conversation, and
whenever a response is produced its `conversation_id` field is `temp1234`
rather than the supplied value. -/
theorem ask_question_substitutes_static_id (hybrid : Bool) (req : QueryRequest)
    (orc : AskOracles) (s0 : DBState)
    (h : req.conversation_id = none ∨
      ∃ c, req.conversation_id = some c ∧ conversation_exists s0 c = false) :
    (∀ m ∈ (ask_question hybrid req orc s0).state.msgs,
      m ∈ s0.msgs ∨ m.conversation_id = "temp1234") ∧
    ∀ resp, (ask_question hybrid req orc s0).result = .ok resp →
      resp.conversation_id = "temp1234" := by
  have hcid : resolve_conversation_id req s0 = "temp1234" := by
    rcases h with h | ⟨c, hc, hex⟩
    · rw [resolve_conversation_id, h]
    · rw [resolve_conversation_id, hc]
      simp [hex]
  have hgen := ask_question_cid_general hybrid req orc s0
  rw [hcid] at hgen
  exact hgen

/-- Witness for C10: a request without a conversation id against the empty
store. -/
theorem ask_question_substitutes_static_id_witness :
    ((⟨"q", none, none⟩ : QueryRequest).conversation_id = none ∨
      ∃ c, (⟨"q", none, none⟩ : QueryRequest).conversation_id = some c ∧
        conversation_exists ⟨[], [], 0⟩ c = false) ∧
    ((∀ m ∈ (ask_question true ⟨"q", none, none⟩ ⟨[], [], .ok none, .ok "ok", "g"⟩
        ⟨[], [], 0⟩).state.msgs,
        m ∈ (⟨[], [], 0⟩ : DBState).msgs ∨ m.conversation_id = "temp1234") ∧
      ∀ resp, (ask_question true ⟨"q", none, none⟩ ⟨[], [], .ok none, .ok "ok", "g"⟩
        ⟨[], [], 0⟩).result = .ok resp → resp.conversation_id = "temp1234") :=
  ⟨Or.inl rfl,
    ask_question_substitutes_static_id true ⟨"q", none, none⟩
      ⟨[], [], .ok none, .ok "ok", "g"⟩ ⟨[], [], 0⟩ (Or.inl rfl)⟩

/-- C1 is refuted on the code: with both chunk sets empty the branch at
source line 141 does assign the fixed no-information answer, but the
unconditional block at lines 187 to 188 re-enters the traditional path
(its guard `use_hybrid_local and not web_results` holds because the web
set is empty), invokes the generation service once, and overwrites the
answer with the generated text.  Here the generation oracle returns
`"ok"`, so the call returns `"ok"`, not the fixed message. -/
theorem ask_question_no_evidence_still_invokes_generation :
    (ask_question true ⟨"q", none, none⟩ ⟨[], [], .ok none, .ok "ok", "g"⟩
      ⟨[], [], 0⟩).ragGenCalls = 1 ∧
    (ask_question true ⟨"q", none, none⟩ ⟨[], [], .ok none, .ok "ok", "g"⟩
      ⟨[], [], 0⟩).result.map (fun r => r.answer) = .ok "ok" ∧
    "ok" ≠ noInfoAnswer :=
  ⟨by decide, by decide, by decide⟩

/-- C2 is refuted on the code: when both chunk sets are non-empty and the
chat completion inside `judge_merge_answers` raises, the judge catches
the exception itself and returns the string `(Error during judgment: e)`;
the endpoint therefore never enters its fallback `except` clause, the
local-only generation path is never invoked (`ragGenCalls = 0`), and the
error text is returned as the answer. -/
theorem ask_question_judge_failure_returns_error_answer :
    (ask_question true ⟨"q", none, none⟩
      ⟨[⟨"local fact", "kasparchive", none, none, none, none, none⟩],
       [⟨"web fact", "web_search", none, none, none, none, none⟩],
       .error "boom", .ok "local", "g"⟩ ⟨[], [], 0⟩).ragGenCalls = 0 ∧
    (ask_question true ⟨"q", none, none⟩
      ⟨[⟨"local fact", "kasparchive", none, none, none, none, none⟩],
       [⟨"web fact", "web_search", none, none, none, none, none⟩],
       .error "boom", .ok "local", "g"⟩ ⟨[], [], 0⟩).judgeCalls = 1 ∧
    (ask_question true ⟨"q", none, none⟩
      ⟨[⟨"local fact", "kasparchive", none, none, none, none, none⟩],
       [⟨"web fact", "web_search", none, none, none, none, none⟩],
       .error "boom", .ok "local", "g"⟩ ⟨[], [], 0⟩).result.map (fun r => r.answer) =
      .ok "(Error during judgment: boom)" :=
  ⟨by decide, by decide, by decide⟩

/-- C9 is refuted on the code: with an empty local set and a non-empty web
set (hybrid on) no branch of step 3 assigns the `citations` variable and
the traditional-path guard is false, so reading `citations` at source
line 227 raises a `NameError` that escapes the endpoint after the user
turn was stored but before any assistant turn is stored: the call
mutates the store once, not twice. -/
theorem ask_question_web_only_appends_single_turn :
    (ask_question true ⟨"q", none, none⟩
      ⟨[], [⟨"web fact", "web_search", none, none, none, none, none⟩],
       .ok none, .ok "x", "g"⟩ ⟨[], [], 0⟩).result =
      .error "NameError: citations is not defined" ∧
    ((ask_question true ⟨"q", none, none⟩
      ⟨[], [⟨"web fact", "web_search", none, none, none, none, none⟩],
       .ok none, .ok "x", "g"⟩ ⟨[], [], 0⟩).state.msgs.filter
        (fun m => m.conversation_id = "temp1234" ∧ m.role = "user")).length = 1 ∧
    ((ask_question true ⟨"q", none, none⟩
      ⟨[], [⟨"web fact", "web_search", none, none, none, none, none⟩],
       .ok none, .ok "x", "g"⟩ ⟨[], [], 0⟩).state.msgs.filter
        (fun m => m.role = "assistant")).length = 0 :=
  ⟨by decide, by decide, by decide⟩

/-- Witness for the amended C6 at concrete inputs. -/
theorem fetch_web_chunks_degrades_witness :
    pyStrip "x" ≠ "" ∧
    fetch_web_chunks true (.error "boom") (fun _ => none) 6 = .ok [errorChunk "boom"] ∧
    fetch_web_chunks true (.ok (some "x")) (fun _ => none) 6 =
      .ok [rawTextChunk (pyStrip "x")] :=
  ⟨by decide,
    (fetch_web_chunks_degrades (.ok none) (fun _ => none) 6 "boom" "x"
      (by decide) rfl).2.1,
    (fetch_web_chunks_degrades (.ok none) (fun _ => none) 6 "boom" "x"
      (by decide) rfl).2.2.1⟩
